import Mathlib

/-!
Shallow embedding of the rave room server (`src/client.js`).

The server keeps an in-memory `Map` from room codes to room objects and a
set of socket-io event handlers that mutate it.  We model:

* JS objects `{type, id}` for media references and `{id, name}` for users;
* the room object created by the `create-room` handler;
* the registry `rooms : Map` as an association list with JS `Map`
  semantics (`get`/`set`/`delete`, `set` overwrites in place or appends);
* `socket.rooms` (the transport's group membership: every socket is in a
  group named by its own id, plus every group it joined) as a per-socket
  code list;
* each socket-io handler as a function from server state (plus the
  request fields and, where the handler calls `Date.now()`, the current
  clock value) to the new server state and the list of emitted events,
  each tagged with its fan-out target.

JS numbers that the server only ever sets to integers or to `NaN`
(`currentIndex`, which becomes `NaN` through `x % 0`) are modelled as
`Option Int` with `none` for `NaN`; times (`currentTime`, `newTime`) are
modelled as rationals and millisecond timestamps as integers.
-/

/-- A media reference `{type, id}` as stored in `room.queue`. -/
structure Media where
  type : String
  id : String
deriving DecidableEq

/-- A user entry `{id, name}` as stored in `room.users`. -/
structure User where
  id : String
  name : String
deriving DecidableEq

/-- The room object built by the `create-room` handler (src/client.js:145-153). -/
structure Room where
  hostId : String
  media : Option Media
  queue : List Media
  currentIndex : Option Int
  isPlaying : Bool
  currentTime : Rat
  users : List User
deriving DecidableEq

/-- JS `Map.prototype.get`: first binding of the key, if any. -/
def lookupAssoc {α : Type} (l : List (String × α)) (k : String) : Option α :=
  match l with
  | [] => none
  | (k1, v) :: rest => if k1 = k then some v else lookupAssoc rest k

/-- JS `Map.prototype.set`: overwrite the binding in place, or append. -/
def updateAssoc {α : Type} (l : List (String × α)) (k : String) (v : α) :
    List (String × α) :=
  match l with
  | [] => [(k, v)]
  | (k1, v1) :: rest =>
      if k1 = k then (k, v) :: rest else (k1, v1) :: updateAssoc rest k v

/-- JS `Map.prototype.delete`: drop every binding of the key. -/
def eraseAssoc {α : Type} (l : List (String × α)) (k : String) :
    List (String × α) :=
  l.filter (fun p => decide (p.1 ≠ k))

/-- Events emitted by the server handlers, one constructor per event name. -/
inductive Event where
  | errorMsg (msg : String)
  | roomCreated (code : String)
  | userJoined (name : String)
  | roomState (media : Option Media) (queue : List Media)
      (currentIndex : Option Int) (isPlaying : Bool) (currentTime : Rat)
      (hostId : String) (users : List String)
  | mediaUpdated (media : Option Media) (queue : List Media)
      (currentIndex : Option Int)
  | syncPlay (currentTime : Rat) (timestamp : Int) (offset : Rat)
  | syncPause (timestamp : Int)
  | syncSeek (newTime : Rat) (timestamp : Int)
  | newChat (user : String) (message : String) (timestamp : Int)
  | userLeft (id : String)
  | voiceOffer (offer : String) (fromId : String)
  | voiceAnswer (answer : String) (fromId : String)
  | iceCandidate (candidate : String) (fromId : String)
deriving DecidableEq

/-- Fan-out target of an emitted event: `socket.emit` (sender only),
`io.to(code).emit` (every socket in the group, sender included),
`socket.to(code).emit` (the group minus the sender), and the chained
`socket.to(a).to(b).emit` (the union of the groups minus the sender). -/
inductive Target where
  | toSender (sid : String)
  | toRoom (code : String)
  | toRoomExceptSender (code : String) (sid : String)
  | toRoomsExceptSender (codes : List String) (sid : String)
deriving DecidableEq

/-- The server state: the `rooms` registry plus, for each socket, the list
of groups it explicitly joined (`socket.rooms` minus the automatic
personal group named by the socket's own id). -/
structure ServerState where
  rooms : List (String × Room)
  joined : List (String × List String)
deriving DecidableEq

/-- Initial server state: no rooms, no group memberships. -/
def ServerState.init : ServerState := { rooms := [], joined := [] }

/-- `socket.rooms` of socket `sid`: the personal group `sid` followed by
the groups it joined, in insertion order. -/
def ServerState.joinedOf (s : ServerState) (sid : String) : List String :=
  sid :: (match lookupAssoc s.joined sid with
          | some l => l
          | none => [])

/-- `socket.join(code)`: add `code` to the socket's group set (a JS `Set`,
so adding an already-present code is a no-op). -/
def ServerState.addJoin (s : ServerState) (sid code : String) : ServerState :=
  if code ∈ s.joinedOf sid then s
  else
    { s with
      joined := updateAssoc s.joined sid
        ((match lookupAssoc s.joined sid with
          | some l => l
          | none => []) ++ [code]) }

/-- JS addition where one operand may be `NaN`. -/
def jsAdd (a : Option Int) (b : Int) : Option Int :=
  match a with
  | none => none
  | some x => some (x + b)

/-- JS `%` on integers: `NaN` stays `NaN`, `x % 0` is `NaN`, otherwise the
truncated remainder (sign of the dividend). -/
def jsMod (a : Option Int) (n : Int) : Option Int :=
  match a with
  | none => none
  | some x => if n = 0 then none else some (Int.tmod x n)

/-- JS array indexing `arr[i]`: `undefined` (here `none`) on `NaN`,
negative, or out-of-range indices. -/
def jsIndexGet (l : List Media) (i : Option Int) : Option Media :=
  match i with
  | none => none
  | some x => if 0 ≤ x then l.get? x.toNat else none

/-- The `create-room` handler (src/client.js:139-158).  The handler draws
`roomCode` from the generator, retrying while `rooms.has(roomCode)`; the
generated value is passed in as `code` and reachability steps carry the
loop's postcondition `lookupAssoc s.rooms code = none` as a hypothesis. -/
def handleCreateRoom (s : ServerState) (sid userName code : String) :
    ServerState × List (Target × Event) :=
  let room : Room :=
    { hostId := sid, media := none, queue := [], currentIndex := some 0,
      isPlaying := false, currentTime := 0,
      users := [{ id := sid, name := userName }] }
  let s1 : ServerState := { s with rooms := updateAssoc s.rooms code room }
  let s2 := s1.addJoin sid code
  (s2, [(Target.toSender sid, Event.roomCreated code)])

/-- The `join-room` handler (src/client.js:114-136). -/
def handleJoinRoom (s : ServerState) (sid roomCode userName : String) :
    ServerState × List (Target × Event) :=
  match lookupAssoc s.rooms roomCode with
  | none => (s, [(Target.toSender sid, Event.errorMsg "Room not found")])
  | some room =>
      let s1 := s.addJoin sid roomCode
      let room1 := { room with users := room.users ++ [{ id := sid, name := userName }] }
      let s2 : ServerState := { s1 with rooms := updateAssoc s1.rooms roomCode room1 }
      (s2,
        [(Target.toRoomExceptSender roomCode sid, Event.userJoined userName),
         (Target.toSender sid,
           Event.roomState room1.media room1.queue room1.currentIndex
             room1.isPlaying room1.currentTime room1.hostId
             (room1.users.map User.name))])

/-- The guard sequence shared verbatim by the six host-gated handlers
(`load-media`, `play`, `pause`, `seek`, `next-video`, `prev-video`):
`if (!rooms.has(roomCode) || !socket.rooms.has(roomCode)) return;`
`if (rooms.get(roomCode).hostId !== socket.id) return;`
then run the handler body on the room and store the mutated room back. -/
def hostGuarded (s : ServerState) (sid roomCode : String)
    (body : Room → Room × List (Target × Event)) :
    ServerState × List (Target × Event) :=
  match lookupAssoc s.rooms roomCode with
  | none => (s, [])
  | some room =>
      if roomCode ∈ s.joinedOf sid then
        if room.hostId = sid then
          ({ s with rooms := updateAssoc s.rooms roomCode (body room).1 },
           (body room).2)
        else (s, [])
      else (s, [])

/-- The `load-media` handler (src/client.js:161-174).  Note the broadcast
carries the request's `media` argument, not `room.media`. -/
def handleLoadMedia (s : ServerState) (sid roomCode : String) (media : Media)
    (addToQueue : Bool) : ServerState × List (Target × Event) :=
  hostGuarded s sid roomCode (fun room =>
    let room1 :=
      if addToQueue then { room with queue := room.queue ++ [media] }
      else { room with media := some media, currentIndex := some 0,
                       queue := [media] }
    (room1,
     [(Target.toRoom roomCode,
       Event.mediaUpdated (some media) room1.queue room1.currentIndex)]))

/-- The `play` handler (src/client.js:177-191); `now` is `Date.now()`. -/
def handlePlay (s : ServerState) (sid roomCode : String) (currentTime : Rat)
    (now : Int) : ServerState × List (Target × Event) :=
  hostGuarded s sid roomCode (fun room =>
    ({ room with isPlaying := true, currentTime := currentTime },
     [(Target.toRoom roomCode, Event.syncPlay currentTime now 0)]))

/-- The `pause` handler (src/client.js:193-201). -/
def handlePause (s : ServerState) (sid roomCode : String) (now : Int) :
    ServerState × List (Target × Event) :=
  hostGuarded s sid roomCode (fun room =>
    ({ room with isPlaying := false },
     [(Target.toRoom roomCode, Event.syncPause now)]))

/-- The `seek` handler (src/client.js:203-211). -/
def handleSeek (s : ServerState) (sid roomCode : String) (newTime : Rat)
    (now : Int) : ServerState × List (Target × Event) :=
  hostGuarded s sid roomCode (fun room =>
    ({ room with currentTime := newTime },
     [(Target.toRoom roomCode, Event.syncSeek newTime now)]))

/-- The room mutation of the `next-video` handler (src/client.js:217-221):
`currentIndex = (currentIndex + 1) % queue.length`, `media = queue[currentIndex]`,
`currentTime = 0`, `isPlaying = false`. -/
def navNext (room : Room) : Room :=
  let ci := jsMod (jsAdd room.currentIndex 1) room.queue.length
  { room with currentIndex := ci, media := jsIndexGet room.queue ci,
              currentTime := 0, isPlaying := false }

/-- The room mutation of the `prev-video` handler (src/client.js:231-235):
`currentIndex = (currentIndex - 1 + queue.length) % queue.length`. -/
def navPrev (room : Room) : Room :=
  let ci := jsMod (jsAdd (jsAdd room.currentIndex (-1)) room.queue.length)
              room.queue.length
  { room with currentIndex := ci, media := jsIndexGet room.queue ci,
              currentTime := 0, isPlaying := false }

/-- The `next-video` handler (src/client.js:213-225). -/
def handleNextVideo (s : ServerState) (sid roomCode : String) (now : Int) :
    ServerState × List (Target × Event) :=
  hostGuarded s sid roomCode (fun room =>
    let room1 := navNext room
    (room1,
     [(Target.toRoom roomCode,
       Event.mediaUpdated room1.media room1.queue room1.currentIndex),
      (Target.toRoom roomCode, Event.syncSeek 0 now)]))

/-- The `prev-video` handler (src/client.js:227-239). -/
def handlePrevVideo (s : ServerState) (sid roomCode : String) (now : Int) :
    ServerState × List (Target × Event) :=
  hostGuarded s sid roomCode (fun room =>
    let room1 := navPrev room
    (room1,
     [(Target.toRoom roomCode,
       Event.mediaUpdated room1.media room1.queue room1.currentIndex),
      (Target.toRoom roomCode, Event.syncSeek 0 now)]))

/-- The `send-chat` handler (src/client.js:242-258): looks the sender up in
`room.users` by socket id and uses the stored name, ignoring the
caller-supplied `userName`. -/
def handleSendChat (s : ServerState) (sid roomCode message : String)
    (now : Int) : ServerState × List (Target × Event) :=
  match lookupAssoc s.rooms roomCode with
  | none => (s, [])
  | some room =>
      if roomCode ∈ s.joinedOf sid then
        match room.users.find? (fun u => u.id == sid) with
        | none => (s, [])
        | some user =>
            (s, [(Target.toRoom roomCode,
                  Event.newChat user.name message now)])
      else (s, [])

/-- The `voice-offer` handler (src/client.js:261-263):
`socket.to(targetId).to(roomCode).emit(...)` — a broadcast to the union of
the two groups, sender excluded. -/
def handleVoiceOffer (s : ServerState) (sid roomCode targetId offer : String) :
    ServerState × List (Target × Event) :=
  (s, [(Target.toRoomsExceptSender [targetId, roomCode] sid,
        Event.voiceOffer offer sid)])

/-- The `voice-answer` handler (src/client.js:265-267). -/
def handleVoiceAnswer (s : ServerState) (sid roomCode targetId answer : String) :
    ServerState × List (Target × Event) :=
  (s, [(Target.toRoomsExceptSender [targetId, roomCode] sid,
        Event.voiceAnswer answer sid)])

/-- The `ice-candidate` handler (src/client.js:269-271). -/
def handleIceCandidate (s : ServerState)
    (sid roomCode targetId candidate : String) :
    ServerState × List (Target × Event) :=
  (s, [(Target.toRoomsExceptSender [targetId, roomCode] sid,
        Event.iceCandidate candidate sid)])

/-- The body of the `disconnect` loop for one `roomCode` of `socket.rooms`
(src/client.js:277-285): filter the socket out of `users`, emit
`user-left`, promote `users[0]` if the host left and members remain,
delete the room if it emptied. -/
def disconnectRoomStep (sid code : String)
    (acc : ServerState × List (Target × Event)) :
    ServerState × List (Target × Event) :=
  match lookupAssoc acc.1.rooms code with
  | none => acc
  | some room =>
      if code = sid then acc
      else
        let users1 := room.users.filter (fun u => decide (u.id ≠ sid))
        let room1 := { room with users := users1 }
        let room2 :=
          match users1 with
          | [] => room1
          | u :: _ => if room1.hostId = sid then { room1 with hostId := u.id }
                      else room1
        let st2 : ServerState :=
          if users1 = [] then { acc.1 with rooms := eraseAssoc acc.1.rooms code }
          else { acc.1 with rooms := updateAssoc acc.1.rooms code room2 }
        (st2, acc.2 ++ [(Target.toRoom code, Event.userLeft sid)])

/-- The `disconnect` handler (src/client.js:274-288): iterate over
`socket.rooms`; afterwards the transport removes the socket from every
group. -/
def handleDisconnect (s : ServerState) (sid : String) :
    ServerState × List (Target × Event) :=
  let r := (s.joinedOf sid).foldl (fun acc code => disconnectRoomStep sid code acc) (s, [])
  ({ r.1 with joined := eraseAssoc r.1.joined sid }, r.2)

/-- Whether socket `rid` is a recipient of an event with fan-out target
`t` in state `s` (socket-io group semantics: a socket is in the group
named by its own id and in every group it joined). -/
def receives (s : ServerState) (t : Target) (rid : String) : Bool :=
  match t with
  | Target.toSender x => rid == x
  | Target.toRoom code => decide (code ∈ s.joinedOf rid)
  | Target.toRoomExceptSender code x =>
      decide (code ∈ s.joinedOf rid) && rid != x
  | Target.toRoomsExceptSender codes x =>
      codes.any (fun c => decide (c ∈ s.joinedOf rid)) && rid != x

/-- The client-side `sync-play` listener (src/client.js:6-9):
`offset = (Date.now() - timestamp) / 1000; seekTo(currentTime + offset)`.
Returns the seek target and whether `playVideo` was issued. -/
def syncPlayClient (localNow timestamp : Int) (currentTime : Rat) :
    Rat × Bool :=
  let offset : Rat := ((localNow : Rat) - (timestamp : Rat)) / 1000
  (currentTime + offset, true)

/-- The spec's clock-compensation formula: target position
`currentTime + (localNow - timestamp) / 1000`. -/
def specSyncPlayTarget (localNow timestamp : Int) (currentTime : Rat) : Rat :=
  currentTime + ((localNow : Rat) - (timestamp : Rat)) / 1000

/-- States reachable from the empty server by any sequence of handler
invocations.  The `create` step carries the `do … while (rooms.has(code))`
loop's postcondition that the generated code is fresh. -/
inductive Reachable : ServerState → Prop where
  | init : Reachable ServerState.init
  | create {s : ServerState} {sid userName code : String} :
      Reachable s → lookupAssoc s.rooms code = none →
      Reachable (handleCreateRoom s sid userName code).1
  | join {s : ServerState} {sid roomCode userName : String} :
      Reachable s → Reachable (handleJoinRoom s sid roomCode userName).1
  | loadMedia {s : ServerState} {sid roomCode : String} {media : Media}
      {addToQueue : Bool} :
      Reachable s → Reachable (handleLoadMedia s sid roomCode media addToQueue).1
  | play {s : ServerState} {sid roomCode : String} {ct : Rat} {now : Int} :
      Reachable s → Reachable (handlePlay s sid roomCode ct now).1
  | pause {s : ServerState} {sid roomCode : String} {now : Int} :
      Reachable s → Reachable (handlePause s sid roomCode now).1
  | seek {s : ServerState} {sid roomCode : String} {nt : Rat} {now : Int} :
      Reachable s → Reachable (handleSeek s sid roomCode nt now).1
  | next {s : ServerState} {sid roomCode : String} {now : Int} :
      Reachable s → Reachable (handleNextVideo s sid roomCode now).1
  | prev {s : ServerState} {sid roomCode : String} {now : Int} :
      Reachable s → Reachable (handlePrevVideo s sid roomCode now).1
  | chat {s : ServerState} {sid roomCode message : String} {now : Int} :
      Reachable s → Reachable (handleSendChat s sid roomCode message now).1
  | vOffer {s : ServerState} {sid roomCode targetId offer : String} :
      Reachable s → Reachable (handleVoiceOffer s sid roomCode targetId offer).1
  | vAnswer {s : ServerState} {sid roomCode targetId answer : String} :
      Reachable s → Reachable (handleVoiceAnswer s sid roomCode targetId answer).1
  | vIce {s : ServerState} {sid roomCode targetId candidate : String} :
      Reachable s → Reachable (handleIceCandidate s sid roomCode targetId candidate).1
  | disconnect {s : ServerState} {sid : String} :
      Reachable s → Reachable (handleDisconnect s sid).1

/-! ### Association-list lemmas -/

theorem lookupAssoc_updateAssoc_self {α : Type} (l : List (String × α))
    (k : String) (v : α) : lookupAssoc (updateAssoc l k v) k = some v := by
  induction l with
  | nil => simp [updateAssoc, lookupAssoc]
  | cons p rest ih =>
      obtain ⟨k1, v1⟩ := p
      by_cases h : k1 = k
      · simp [updateAssoc, lookupAssoc, h]
      · simp [updateAssoc, lookupAssoc, h, ih]

theorem lookupAssoc_updateAssoc_ne {α : Type} (l : List (String × α))
    {k k2 : String} (v : α) (h : k2 ≠ k) :
    lookupAssoc (updateAssoc l k v) k2 = lookupAssoc l k2 := by
  have h2 : ¬ k = k2 := fun hh => h hh.symm
  induction l with
  | nil => simp [updateAssoc, lookupAssoc, h2]
  | cons p rest ih =>
      obtain ⟨k1, v1⟩ := p
      by_cases h1 : k1 = k
      · subst h1
        simp [updateAssoc, lookupAssoc, h2]
      · simp [updateAssoc, lookupAssoc, h1, ih]

theorem lookupAssoc_eraseAssoc_self {α : Type} (l : List (String × α))
    (k : String) : lookupAssoc (eraseAssoc l k) k = none := by
  induction l with
  | nil => simp [eraseAssoc, lookupAssoc]
  | cons p rest ih =>
      obtain ⟨k1, v1⟩ := p
      by_cases h : k1 = k
      · simpa [eraseAssoc, h] using ih
      · simpa [eraseAssoc, lookupAssoc, h] using ih

theorem lookupAssoc_eraseAssoc_ne {α : Type} (l : List (String × α))
    {k k2 : String} (h : k2 ≠ k) :
    lookupAssoc (eraseAssoc l k) k2 = lookupAssoc l k2 := by
  have h2 : ¬ k = k2 := fun hh => h hh.symm
  induction l with
  | nil => simp [eraseAssoc, lookupAssoc]
  | cons p rest ih =>
      obtain ⟨k1, v1⟩ := p
      by_cases h1 : k1 = k
      · subst h1
        simpa [eraseAssoc, lookupAssoc, h2] using ih
      · have ih2 := ih
        simp only [eraseAssoc, decide_not] at ih2
        simp [eraseAssoc, lookupAssoc, h1, ih2]

/-! ### Characterizations of the guarded handlers -/

theorem hostGuarded_not_found {s : ServerState} {sid roomCode : String}
    {body : Room → Room × List (Target × Event)}
    (hl : lookupAssoc s.rooms roomCode = none) :
    hostGuarded s sid roomCode body = (s, []) := by
  unfold hostGuarded
  rw [hl]

theorem hostGuarded_not_joined {s : ServerState} {sid roomCode : String}
    {body : Room → Room × List (Target × Event)}
    (hj : roomCode ∉ s.joinedOf sid) :
    hostGuarded s sid roomCode body = (s, []) := by
  unfold hostGuarded
  cases lookupAssoc s.rooms roomCode with
  | none => rfl
  | some room => simp [hj]

theorem hostGuarded_not_host {s : ServerState} {sid roomCode : String}
    {body : Room → Room × List (Target × Event)} {room : Room}
    (hl : lookupAssoc s.rooms roomCode = some room) (hh : room.hostId ≠ sid) :
    hostGuarded s sid roomCode body = (s, []) := by
  unfold hostGuarded
  rw [hl]
  simp [hh]

theorem hostGuarded_run {s : ServerState} {sid roomCode : String}
    {body : Room → Room × List (Target × Event)} {room : Room}
    (hl : lookupAssoc s.rooms roomCode = some room)
    (hj : roomCode ∈ s.joinedOf sid) (hh : room.hostId = sid) :
    hostGuarded s sid roomCode body =
      ({ s with rooms := updateAssoc s.rooms roomCode (body room).1 },
       (body room).2) := by
  unfold hostGuarded
  rw [hl]
  simp [hj, hh]

/-! ### The host-membership invariant (claim C1) -/

/-- The room's host is one of its members. -/
def hostOk (r : Room) : Prop := r.hostId ∈ r.users.map User.id

/-- Every room of the registry satisfies `hostOk`. -/
def HostInvRooms (rs : List (String × Room)) : Prop :=
  ∀ code room, lookupAssoc rs code = some room → hostOk room

theorem hostInvRooms_update {rs : List (String × Room)} (h : HostInvRooms rs)
    {code : String} {room1 : Room} (h1 : hostOk room1) :
    HostInvRooms (updateAssoc rs code room1) := by
  intro c r hl
  by_cases hc : c = code
  · subst hc
    rw [lookupAssoc_updateAssoc_self] at hl
    cases hl
    exact h1
  · rw [lookupAssoc_updateAssoc_ne _ _ hc] at hl
    exact h c r hl

theorem hostInvRooms_update_same {rs : List (String × Room)}
    (h : HostInvRooms rs) {code : String} {room room1 : Room}
    (hl : lookupAssoc rs code = some room)
    (hh : room1.hostId = room.hostId) (hu : room1.users = room.users) :
    HostInvRooms (updateAssoc rs code room1) := by
  apply hostInvRooms_update h
  unfold hostOk
  rw [hh, hu]
  exact h code room hl

theorem addJoin_rooms (s : ServerState) (sid code : String) :
    (s.addJoin sid code).rooms = s.rooms := by
  unfold ServerState.addJoin
  split <;> rfl

theorem hostInv_hostGuarded {s : ServerState} (h : HostInvRooms s.rooms)
    {sid roomCode : String} {body : Room → Room × List (Target × Event)}
    (hb : ∀ room, (body room).1.hostId = room.hostId ∧
                  (body room).1.users = room.users) :
    HostInvRooms (hostGuarded s sid roomCode body).1.rooms := by
  cases hl : lookupAssoc s.rooms roomCode with
  | none => rw [hostGuarded_not_found hl]; exact h
  | some room =>
      by_cases hj : roomCode ∈ s.joinedOf sid
      · by_cases hh : room.hostId = sid
        · rw [hostGuarded_run hl hj hh]
          exact hostInvRooms_update_same h hl (hb room).1 (hb room).2
        · rw [hostGuarded_not_host hl hh]; exact h
      · rw [hostGuarded_not_joined hj]; exact h

theorem hostInv_handleCreateRoom {s : ServerState}
    (h : HostInvRooms s.rooms) (sid userName code : String) :
    HostInvRooms (handleCreateRoom s sid userName code).1.rooms := by
  unfold handleCreateRoom
  simp only [addJoin_rooms]
  apply hostInvRooms_update h
  simp [hostOk]

theorem hostInv_handleJoinRoom {s : ServerState}
    (h : HostInvRooms s.rooms) (sid roomCode userName : String) :
    HostInvRooms (handleJoinRoom s sid roomCode userName).1.rooms := by
  unfold handleJoinRoom
  cases hl : lookupAssoc s.rooms roomCode with
  | none => exact h
  | some room =>
      simp only [addJoin_rooms]
      apply hostInvRooms_update h
      have h0 : hostOk room := h roomCode room hl
      unfold hostOk at h0 ⊢
      simp only [List.map_append, List.mem_append]
      exact Or.inl h0

theorem state_handleSendChat (s : ServerState) (sid roomCode message : String)
    (now : Int) : (handleSendChat s sid roomCode message now).1 = s := by
  unfold handleSendChat
  cases lookupAssoc s.rooms roomCode with
  | none => rfl
  | some room =>
      by_cases hj : roomCode ∈ s.joinedOf sid
      · simp only [hj, if_true]
        cases room.users.find? (fun u => u.id == sid) <;> rfl
      · simp [hj]

/-! ### Characterizations of the disconnect loop body -/

theorem disconnectRoomStep_not_found {sid code : String}
    {acc : ServerState × List (Target × Event)}
    (hl : lookupAssoc acc.1.rooms code = none) :
    disconnectRoomStep sid code acc = acc := by
  unfold disconnectRoomStep
  rw [hl]

theorem disconnectRoomStep_self {sid : String}
    {acc : ServerState × List (Target × Event)} {room : Room}
    (hl : lookupAssoc acc.1.rooms sid = some room) :
    disconnectRoomStep sid sid acc = acc := by
  unfold disconnectRoomStep
  rw [hl]
  simp

theorem disconnectRoomStep_empty {sid code : String}
    {acc : ServerState × List (Target × Event)} {room : Room}
    (hl : lookupAssoc acc.1.rooms code = some room) (hc : code ≠ sid)
    (hu : room.users.filter (fun u => decide (u.id ≠ sid)) = []) :
    disconnectRoomStep sid code acc =
      ({ acc.1 with rooms := eraseAssoc acc.1.rooms code },
       acc.2 ++ [(Target.toRoom code, Event.userLeft sid)]) := by
  unfold disconnectRoomStep
  simp only [hl]
  rw [if_neg hc]
  simp only [hu]
  simp

theorem disconnectRoomStep_promote {sid code : String}
    {acc : ServerState × List (Target × Event)} {room : Room} {u : User}
    {rest : List User}
    (hl : lookupAssoc acc.1.rooms code = some room) (hc : code ≠ sid)
    (hu : room.users.filter (fun u => decide (u.id ≠ sid)) = u :: rest)
    (hh : room.hostId = sid) :
    disconnectRoomStep sid code acc =
      ({ acc.1 with rooms := updateAssoc acc.1.rooms code ({ room with users := u :: rest, hostId := u.id } : Room) },
       acc.2 ++ [(Target.toRoom code, Event.userLeft sid)]) := by
  unfold disconnectRoomStep
  simp only [hl]
  rw [if_neg hc]
  simp only [hu, hh]
  simp

theorem disconnectRoomStep_keep {sid code : String}
    {acc : ServerState × List (Target × Event)} {room : Room} {u : User}
    {rest : List User}
    (hl : lookupAssoc acc.1.rooms code = some room) (hc : code ≠ sid)
    (hu : room.users.filter (fun u => decide (u.id ≠ sid)) = u :: rest)
    (hh : room.hostId ≠ sid) :
    disconnectRoomStep sid code acc =
      ({ acc.1 with rooms := updateAssoc acc.1.rooms code ({ room with users := u :: rest } : Room) },
       acc.2 ++ [(Target.toRoom code, Event.userLeft sid)]) := by
  unfold disconnectRoomStep
  simp only [hl]
  rw [if_neg hc]
  simp only [hu]
  simp [hh]

theorem hostInv_disconnectRoomStep {sid code : String}
    {acc : ServerState × List (Target × Event)}
    (h : HostInvRooms acc.1.rooms) :
    HostInvRooms (disconnectRoomStep sid code acc).1.rooms := by
  cases hl : lookupAssoc acc.1.rooms code with
  | none => rw [disconnectRoomStep_not_found hl]; exact h
  | some room =>
      by_cases hc : code = sid
      · subst hc
        rw [disconnectRoomStep_self hl]
        exact h
      · cases hu : room.users.filter (fun u => decide (u.id ≠ sid)) with
        | nil =>
            rw [disconnectRoomStep_empty hl hc hu]
            intro c r hlr
            by_cases hcc : c = code
            · subst hcc
              rw [lookupAssoc_eraseAssoc_self] at hlr
              cases hlr
            · rw [lookupAssoc_eraseAssoc_ne _ hcc] at hlr
              exact h c r hlr
        | cons u rest =>
            by_cases hh : room.hostId = sid
            · rw [disconnectRoomStep_promote hl hc hu hh]
              apply hostInvRooms_update h
              unfold hostOk
              simp
            · rw [disconnectRoomStep_keep hl hc hu hh]
              apply hostInvRooms_update h
              unfold hostOk
              have h0 : hostOk room := h code room hl
              unfold hostOk at h0
              rcases List.mem_map.mp h0 with ⟨u0, hu0, hid⟩
              have hu0f : u0 ∈ room.users.filter (fun v => decide (v.id ≠ sid)) := by
                apply List.mem_filter.mpr
                refine ⟨hu0, ?_⟩
                simp only [decide_eq_true_eq]
                rw [hid]
                exact hh
              rw [hu] at hu0f
              exact List.mem_map.mpr ⟨u0, hu0f, hid⟩

theorem hostInv_disconnectFold (sid : String) (codes : List String) :
    ∀ acc : ServerState × List (Target × Event),
      HostInvRooms acc.1.rooms →
      HostInvRooms
        ((codes.foldl (fun a c => disconnectRoomStep sid c a) acc).1).rooms := by
  induction codes with
  | nil => intro acc h; exact h
  | cons c cs ih =>
      intro acc h
      exact ih _ (hostInv_disconnectRoomStep h)

theorem hostInv_handleDisconnect {s : ServerState}
    (h : HostInvRooms s.rooms) (sid : String) :
    HostInvRooms (handleDisconnect s sid).1.rooms := by
  unfold handleDisconnect
  exact hostInv_disconnectFold sid (s.joinedOf sid) (s, []) h

theorem reachable_hostInv {s : ServerState} (h : Reachable s) :
    HostInvRooms s.rooms := by
  induction h with
  | init => intro c r hl; simp [ServerState.init, lookupAssoc] at hl
  | create _ _ ih => exact hostInv_handleCreateRoom ih _ _ _
  | join _ ih => exact hostInv_handleJoinRoom ih _ _ _
  | loadMedia _ ih =>
      apply hostInv_hostGuarded ih
      intro room
      dsimp only
      constructor <;> split <;> rfl
  | play _ ih => exact hostInv_hostGuarded ih fun room => ⟨rfl, rfl⟩
  | pause _ ih => exact hostInv_hostGuarded ih fun room => ⟨rfl, rfl⟩
  | seek _ ih => exact hostInv_hostGuarded ih fun room => ⟨rfl, rfl⟩
  | next _ ih => exact hostInv_hostGuarded ih fun room => ⟨rfl, rfl⟩
  | prev _ ih => exact hostInv_hostGuarded ih fun room => ⟨rfl, rfl⟩
  | chat _ ih => rw [state_handleSendChat]; exact ih
  | vOffer _ ih => exact ih
  | vAnswer _ ih => exact ih
  | vIce _ ih => exact ih
  | disconnect _ ih => exact hostInv_handleDisconnect ih _

/-- C1: in every reachable server state — i.e. after any sequence of
handler invocations, in particular create-room, join-room and disconnect —
every room present in the registry has a `hostId` equal to the connection
id of one of the entries of its `users` list. -/
theorem c1_room_host_is_member (s : ServerState) (code : String) (room : Room)
    (hs : Reachable s) (hl : lookupAssoc s.rooms code = some room) :
    room.hostId ∈ room.users.map User.id :=
  reachable_hostInv hs code room hl

def c1ExState : ServerState :=
  (handleCreateRoom ServerState.init "A" "alice" "R1").1

def c1ExRoom : Room :=
  { hostId := "A", media := none, queue := [], currentIndex := some 0,
    isPlaying := false, currentTime := 0,
    users := [{ id := "A", name := "alice" }] }

/-- Witness for C1 at a concrete reachable state. -/
theorem c1_room_host_is_member_w :
    lookupAssoc c1ExState.rooms "R1" = some c1ExRoom ∧
      c1ExRoom.hostId ∈ c1ExRoom.users.map User.id := by
  refine ⟨by rfl, c1_room_host_is_member c1ExState "R1" c1ExRoom ?_ (by rfl)⟩
  exact Reachable.create Reachable.init (by rfl)

/-! ### Claim C4: precondition failures never mutate state -/

theorem hostGuarded_noop {s : ServerState} {sid roomCode : String}
    {body : Room → Room × List (Target × Event)}
    (h : roomCode ∉ s.joinedOf sid ∨
         ∀ room, lookupAssoc s.rooms roomCode = some room → room.hostId ≠ sid) :
    hostGuarded s sid roomCode body = (s, []) := by
  rcases h with h | h
  · exact hostGuarded_not_joined h
  · cases hl : lookupAssoc s.rooms roomCode with
    | none => exact hostGuarded_not_found hl
    | some room => exact hostGuarded_not_host hl (h room hl)

/-- C4: whenever the caller is not the room's host (in particular whenever
the room does not exist, since then there is no host) or is not a member
of the socket-io group, each of `load-media`, `play`, `pause`, `seek`,
`next-video`, `prev-video` leaves the entire server state — in particular
the room's snapshot — exactly as it was. -/
theorem c4_non_host_requests_no_mutation (s : ServerState)
    (sid roomCode : String) (media : Media) (addToQueue : Bool)
    (ct nt : Rat) (now : Int)
    (h : roomCode ∉ s.joinedOf sid ∨
         ∀ room, lookupAssoc s.rooms roomCode = some room → room.hostId ≠ sid) :
    (handleLoadMedia s sid roomCode media addToQueue).1 = s ∧
    (handlePlay s sid roomCode ct now).1 = s ∧
    (handlePause s sid roomCode now).1 = s ∧
    (handleSeek s sid roomCode nt now).1 = s ∧
    (handleNextVideo s sid roomCode now).1 = s ∧
    (handlePrevVideo s sid roomCode now).1 = s := by
  refine ⟨?_, ?_, ?_, ?_, ?_, ?_⟩ <;>
    simp only [handleLoadMedia, handlePlay, handlePause, handleSeek,
               handleNextVideo, handlePrevVideo, hostGuarded_noop h]

def c4ExState : ServerState :=
  (handleJoinRoom (handleCreateRoom ServerState.init "A" "alice" "R1").1
    "B" "R1" "bob").1

/-- Witness for C4: non-host member B issues all six requests. -/
theorem c4_non_host_requests_no_mutation_w :
    (handleLoadMedia c4ExState "B" "R1" { type := "youtube", id := "xyz" } true).1 = c4ExState ∧
    (handlePlay c4ExState "B" "R1" 5 99).1 = c4ExState ∧
    (handlePause c4ExState "B" "R1" 99).1 = c4ExState ∧
    (handleSeek c4ExState "B" "R1" 7 99).1 = c4ExState ∧
    (handleNextVideo c4ExState "B" "R1" 99).1 = c4ExState ∧
    (handlePrevVideo c4ExState "B" "R1" 99).1 = c4ExState := by
  apply c4_non_host_requests_no_mutation c4ExState "B" "R1"
    { type := "youtube", id := "xyz" } true 5 7 99
  right
  intro room hr
  rw [show lookupAssoc c4ExState.rooms "R1" =
        some { hostId := "A", media := none, queue := [],
               currentIndex := some 0, isPlaying := false, currentTime := 0,
               users := [{ id := "A", name := "alice" },
                         { id := "B", name := "bob" }] } from rfl] at hr
  cases hr
  decide

/-! ### Claim C3: navigation on an empty queue -/

def c3ExState : ServerState :=
  (handlePlay (handleCreateRoom ServerState.init "A" "alice" "R1").1
    "A" "R1" 5 50).1

/-- C3 evaluated on the code: on a room with an empty queue, a host
`next-video` (resp. `prev-video`) request is *not* rejected — there is no
error event — and the room state *is* mutated: `currentIndex` becomes
`NaN` (through `x % 0`), `currentTime` resets to `0`, `isPlaying` resets
to `false`, and `media-updated` plus `sync-seek` events are broadcast. -/
theorem c3_empty_queue_navigation_mutates :
    lookupAssoc c3ExState.rooms "R1" =
      some { hostId := "A", media := none, queue := [],
             currentIndex := some 0, isPlaying := true, currentTime := 5,
             users := [{ id := "A", name := "alice" }] } ∧
    (handleNextVideo c3ExState "A" "R1" 99).1 ≠ c3ExState ∧
    lookupAssoc (handleNextVideo c3ExState "A" "R1" 99).1.rooms "R1" =
      some { hostId := "A", media := none, queue := [],
             currentIndex := none, isPlaying := false, currentTime := 0,
             users := [{ id := "A", name := "alice" }] } ∧
    (handleNextVideo c3ExState "A" "R1" 99).2 =
      [(Target.toRoom "R1", Event.mediaUpdated none [] none),
       (Target.toRoom "R1", Event.syncSeek 0 99)] ∧
    lookupAssoc (handlePrevVideo c3ExState "A" "R1" 99).1.rooms "R1" =
      some { hostId := "A", media := none, queue := [],
             currentIndex := none, isPlaying := false, currentTime := 0,
             users := [{ id := "A", name := "alice" }] } ∧
    (handlePrevVideo c3ExState "A" "R1" 99).2 =
      [(Target.toRoom "R1", Event.mediaUpdated none [] none),
       (Target.toRoom "R1", Event.syncSeek 0 99)] := by
  refine ⟨by decide, by decide, by decide, by decide, by decide, by decide⟩

/-! ### Claims C5/C6: the disconnect loop's effect on one room -/

theorem handleDisconnect_rooms (s : ServerState) (sid : String) :
    (handleDisconnect s sid).1.rooms =
      (((s.joinedOf sid).foldl
          (fun acc code => disconnectRoomStep sid code acc) (s, [])).1).rooms :=
  rfl

theorem disconnectRoomStep_lookup_other {sid code c : String}
    {acc : ServerState × List (Target × Event)} (hne : c ≠ code) :
    lookupAssoc (disconnectRoomStep sid code acc).1.rooms c =
      lookupAssoc acc.1.rooms c := by
  cases hl : lookupAssoc acc.1.rooms code with
  | none => rw [disconnectRoomStep_not_found hl]
  | some room =>
      by_cases hc : code = sid
      · subst hc
        rw [disconnectRoomStep_self hl]
      · cases hu : room.users.filter (fun u => decide (u.id ≠ sid)) with
        | nil =>
            rw [disconnectRoomStep_empty hl hc hu]
            exact lookupAssoc_eraseAssoc_ne _ hne
        | cons u rest =>
            by_cases hh : room.hostId = sid
            · rw [disconnectRoomStep_promote hl hc hu hh]
              exact lookupAssoc_updateAssoc_ne _ _ hne
            · rw [disconnectRoomStep_keep hl hc hu hh]
              exact lookupAssoc_updateAssoc_ne _ _ hne

theorem disconnectFold_lookup_not_mem (sid c : String) :
    ∀ codes : List String, c ∉ codes →
      ∀ acc : ServerState × List (Target × Event),
        lookupAssoc
          ((codes.foldl (fun a k => disconnectRoomStep sid k a) acc).1).rooms c
          = lookupAssoc acc.1.rooms c := by
  intro codes
  induction codes with
  | nil => intro _ acc; rfl
  | cons k ks ih =>
      intro hnc acc
      simp only [List.foldl_cons]
      rw [ih (fun hm => hnc (List.mem_cons_of_mem _ hm)) _]
      exact disconnectRoomStep_lookup_other
        (fun he => hnc (by rw [he]; exact List.mem_cons_self k ks))

/-- C5: when the host of a room disconnects and at least one member
survives the removal, the room's new `hostId` is the id of the first
surviving entry of `users` in join order. -/
theorem c5_host_disconnect_promotes_first_member (s : ServerState)
    (sid code : String) (room : Room) (u : User) (rest : List User)
    (hl : lookupAssoc s.rooms code = some room)
    (hh : room.hostId = sid)
    (hj : code ∈ s.joinedOf sid)
    (hnd : (s.joinedOf sid).Nodup)
    (hcs : code ≠ sid)
    (hu : room.users.filter (fun v => decide (v.id ≠ sid)) = u :: rest) :
    lookupAssoc (handleDisconnect s sid).1.rooms code =
      some ({ room with users := u :: rest, hostId := u.id } : Room) := by
  obtain ⟨l1, l2, hsplit⟩ := List.append_of_mem hj
  have hnd2 : (l1 ++ code :: l2).Nodup := hsplit ▸ hnd
  have hc1 : code ∉ l1 := by
    intro hmem
    exact List.disjoint_of_nodup_append hnd2 hmem (List.mem_cons_self code l2)
  have hc2 : code ∉ l2 := by
    have h3 := (List.nodup_append.mp hnd2).2.1
    exact (List.nodup_cons.mp h3).1
  rw [handleDisconnect_rooms, hsplit, List.foldl_append, List.foldl_cons]
  have hl1 : lookupAssoc
      ((l1.foldl (fun a k => disconnectRoomStep sid k a)
        ((s, []) : ServerState × List (Target × Event))).1).rooms code
      = some room := by
    rw [disconnectFold_lookup_not_mem sid code l1 hc1]
    exact hl
  rw [disconnectFold_lookup_not_mem sid code l2 hc2,
      disconnectRoomStep_promote hl1 hcs hu hh]
  exact lookupAssoc_updateAssoc_self _ _ _

def c5ExState : ServerState :=
  (handleJoinRoom (handleCreateRoom ServerState.init "A" "alice" "R1").1
    "B" "R1" "bob").1

/-- Witness for C5: host A disconnects, B (earliest surviving joiner)
becomes host. -/
theorem c5_host_disconnect_promotes_first_member_w :
    lookupAssoc (handleDisconnect c5ExState "A").1.rooms "R1" =
      some { hostId := "B", media := none, queue := [],
             currentIndex := some 0, isPlaying := false, currentTime := 0,
             users := [{ id := "B", name := "bob" }] } :=
  c5_host_disconnect_promotes_first_member c5ExState "A" "R1"
    { hostId := "A", media := none, queue := [], currentIndex := some 0,
      isPlaying := false, currentTime := 0,
      users := [{ id := "A", name := "alice" }, { id := "B", name := "bob" }] }
    { id := "B", name := "bob" } []
    (by decide) (by decide) (by decide) (by decide) (by decide) (by decide)

/-- C6: when the disconnecting socket was the last member of a room
(every `users` entry carries its id), the room is deleted from the
registry: a subsequent lookup of the room code returns `none`. -/
theorem c6_last_member_disconnect_deletes_room (s : ServerState)
    (sid code : String) (room : Room)
    (hl : lookupAssoc s.rooms code = some room)
    (hj : code ∈ s.joinedOf sid)
    (hnd : (s.joinedOf sid).Nodup)
    (hcs : code ≠ sid)
    (hu : room.users.filter (fun v => decide (v.id ≠ sid)) = []) :
    lookupAssoc (handleDisconnect s sid).1.rooms code = none := by
  obtain ⟨l1, l2, hsplit⟩ := List.append_of_mem hj
  have hnd2 : (l1 ++ code :: l2).Nodup := hsplit ▸ hnd
  have hc1 : code ∉ l1 := by
    intro hmem
    exact List.disjoint_of_nodup_append hnd2 hmem (List.mem_cons_self code l2)
  have hc2 : code ∉ l2 := by
    have h3 := (List.nodup_append.mp hnd2).2.1
    exact (List.nodup_cons.mp h3).1
  rw [handleDisconnect_rooms, hsplit, List.foldl_append, List.foldl_cons]
  have hl1 : lookupAssoc
      ((l1.foldl (fun a k => disconnectRoomStep sid k a)
        ((s, []) : ServerState × List (Target × Event))).1).rooms code
      = some room := by
    rw [disconnectFold_lookup_not_mem sid code l1 hc1]
    exact hl
  rw [disconnectFold_lookup_not_mem sid code l2 hc2,
      disconnectRoomStep_empty hl1 hcs hu]
  exact lookupAssoc_eraseAssoc_self _ _

def c6ExState : ServerState :=
  (handleCreateRoom ServerState.init "A" "alice" "R1").1

/-- Witness for C6: sole member A disconnects, the room is gone. -/
theorem c6_last_member_disconnect_deletes_room_w :
    lookupAssoc (handleDisconnect c6ExState "A").1.rooms "R1" = none :=
  c6_last_member_disconnect_deletes_room c6ExState "A" "R1"
    { hostId := "A", media := none, queue := [], currentIndex := some 0,
      isPlaying := false, currentTime := 0,
      users := [{ id := "A", name := "alice" }] }
    (by decide) (by decide) (by decide) (by decide) (by decide)

/-! ### Claim C7: signaling relay fan-out -/

def c7ExState : ServerState :=
  (handleJoinRoom
    (handleJoinRoom (handleCreateRoom ServerState.init "A" "alice" "ROOM1").1
      "B" "ROOM1" "bob").1
    "C" "ROOM1" "carol").1

/-- C7 counterexample: with members A, B, C of room `ROOM1`, A's
`voice-offer` targeted at B is also received by C — the chained
`socket.to(targetId).to(roomCode)` is a union broadcast, not an
intersection — refuting "delivered only to `targetId` and to no other
member of the room". -/
theorem c7_signal_reaches_third_member :
    (handleVoiceOffer c7ExState "A" "ROOM1" "B" "sdp").2 =
      [(Target.toRoomsExceptSender ["B", "ROOM1"] "A",
        Event.voiceOffer "sdp" "A")] ∧
    receives c7ExState (Target.toRoomsExceptSender ["B", "ROOM1"] "A") "C"
      = true ∧
    ("C" : String) ≠ "B" :=
  ⟨rfl, by decide, by decide⟩

/-- C7 amended: each of `voice-offer`/`voice-answer`/`ice-candidate` emits
exactly one relayed event, carrying the sender's id, whose recipients are
exactly the sockets in the union of the group named `targetId` (i.e. the
target itself, plus anyone who joined a group of that name) and the group
named `roomCode`, excluding the sender — not only `targetId`. -/
theorem c7_signal_delivery_set (s : ServerState)
    (sid roomCode targetId payload rid : String) :
    (handleVoiceOffer s sid roomCode targetId payload).2 =
      [(Target.toRoomsExceptSender [targetId, roomCode] sid,
        Event.voiceOffer payload sid)] ∧
    (handleVoiceAnswer s sid roomCode targetId payload).2 =
      [(Target.toRoomsExceptSender [targetId, roomCode] sid,
        Event.voiceAnswer payload sid)] ∧
    (handleIceCandidate s sid roomCode targetId payload).2 =
      [(Target.toRoomsExceptSender [targetId, roomCode] sid,
        Event.iceCandidate payload sid)] ∧
    (receives s (Target.toRoomsExceptSender [targetId, roomCode] sid) rid
        = true ↔
      ((targetId ∈ s.joinedOf rid ∨ roomCode ∈ s.joinedOf rid) ∧
        rid ≠ sid)) := by
  refine ⟨rfl, rfl, rfl, ?_⟩
  unfold receives
  simp [bne_iff_ne]

/-! ### Claim C9: load-media with addToQueue -/

/-- C9 amended: a host `load-media` with `addToQueue = true` appends the
request's `mediaRef` to the queue, leaves the room's `media` and
`currentIndex` (and every other room) untouched, and broadcasts to the
whole room a `media-updated` event carrying the *request's* `mediaRef`
(which, in this branch, need not equal the room's unchanged `media`)
together with the resulting queue and the unchanged `currentIndex`. -/
theorem c9_load_media_addToQueue (s : ServerState) (sid roomCode : String)
    (media : Media) (room : Room)
    (hl : lookupAssoc s.rooms roomCode = some room)
    (hj : roomCode ∈ s.joinedOf sid)
    (hh : room.hostId = sid) :
    lookupAssoc (handleLoadMedia s sid roomCode media true).1.rooms roomCode =
      some ({ room with queue := room.queue ++ [media] } : Room) ∧
    (∀ c, c ≠ roomCode →
      lookupAssoc (handleLoadMedia s sid roomCode media true).1.rooms c =
        lookupAssoc s.rooms c) ∧
    (handleLoadMedia s sid roomCode media true).2 =
      [(Target.toRoom roomCode,
        Event.mediaUpdated (some media) (room.queue ++ [media])
          room.currentIndex)] := by
  unfold handleLoadMedia
  rw [hostGuarded_run hl hj hh]
  refine ⟨?_, ?_, rfl⟩
  · exact lookupAssoc_updateAssoc_self _ _ _
  · intro c hc
    exact lookupAssoc_updateAssoc_ne _ _ hc

def c9ExState : ServerState :=
  (handleLoadMedia (handleCreateRoom ServerState.init "A" "alice" "R1").1
    "A" "R1" { type := "youtube", id := "m0" } false).1

/-- C9 counterexample: with current media `m0`, the host queues `m1`; the
room's resulting media is still `m0` but the broadcast `media-updated`
event carries `m1` — the claim's "the broadcast carries the room's
resulting media" is false at this input. -/
theorem c9_broadcast_media_differs_from_room_media :
    (handleLoadMedia c9ExState "A" "R1"
        { type := "youtube", id := "m1" } true).2 =
      [(Target.toRoom "R1",
        Event.mediaUpdated (some { type := "youtube", id := "m1" })
          [{ type := "youtube", id := "m0" }, { type := "youtube", id := "m1" }]
          (some 0))] ∧
    lookupAssoc (handleLoadMedia c9ExState "A" "R1"
        { type := "youtube", id := "m1" } true).1.rooms "R1" =
      some { hostId := "A", media := some { type := "youtube", id := "m0" },
             queue := [{ type := "youtube", id := "m0" },
                       { type := "youtube", id := "m1" }],
             currentIndex := some 0, isPlaying := false, currentTime := 0,
             users := [{ id := "A", name := "alice" }] } ∧
    some ({ type := "youtube", id := "m1" } : Media) ≠
      some ({ type := "youtube", id := "m0" } : Media) :=
  ⟨by decide, by decide, by decide⟩

/-- Witness for the amended C9 at a concrete host request. -/
theorem c9_load_media_addToQueue_w :
    lookupAssoc (handleLoadMedia c9ExState "A" "R1"
        { type := "youtube", id := "m1" } true).1.rooms "R1" =
      some { hostId := "A", media := some { type := "youtube", id := "m0" },
             queue := [{ type := "youtube", id := "m0" },
                       { type := "youtube", id := "m1" }],
             currentIndex := some 0, isPlaying := false, currentTime := 0,
             users := [{ id := "A", name := "alice" }] } :=
  (c9_load_media_addToQueue c9ExState "A" "R1"
    { type := "youtube", id := "m1" }
    { hostId := "A", media := some { type := "youtube", id := "m0" },
      queue := [{ type := "youtube", id := "m0" }],
      currentIndex := some 0, isPlaying := false, currentTime := 0,
      users := [{ id := "A", name := "alice" }] }
    (by decide) (by decide) (by decide)).1

/-! ### Claim C10: clock-compensated sync-play -/

/-- C10: a host `play` broadcasts `sync-play {currentTime, timestamp}` to
the whole room, and every receiving client computes
`offset = (localNow - timestamp) / 1000` and seeks to
`currentTime + offset` — the client listener equals the spec's
compensation formula applied to the broadcast pair for every local clock
value. -/
theorem c10_sync_play_compensation (s : ServerState) (sid roomCode : String)
    (ct : Rat) (now : Int) (room : Room)
    (hl : lookupAssoc s.rooms roomCode = some room)
    (hj : roomCode ∈ s.joinedOf sid)
    (hh : room.hostId = sid) :
    (handlePlay s sid roomCode ct now).2 =
      [(Target.toRoom roomCode, Event.syncPlay ct now 0)] ∧
    ∀ localNow : Int,
      syncPlayClient localNow now ct =
        (specSyncPlayTarget localNow now ct, true) := by
  constructor
  · unfold handlePlay
    rw [hostGuarded_run hl hj hh]
  · intro localNow
    rfl

def c10ExState : ServerState :=
  (handleCreateRoom ServerState.init "A" "alice" "R1").1

/-- Witness for C10 at a concrete play request. -/
theorem c10_sync_play_compensation_w :
    (handlePlay c10ExState "A" "R1" 5 1000).2 =
      [(Target.toRoom "R1", Event.syncPlay 5 1000 0)] ∧
    ∀ localNow : Int,
      syncPlayClient localNow 1000 5 =
        (specSyncPlayTarget localNow 1000 5, true) :=
  c10_sync_play_compensation c10ExState "A" "R1" 5 1000
    { hostId := "A", media := none, queue := [], currentIndex := some 0,
      isPlaying := false, currentTime := 0,
      users := [{ id := "A", name := "alice" }] }
    (by decide) (by decide) (by decide)

/-! ### Claim C8: duplicate users through re-join -/

def c8ExState : ServerState :=
  (handleJoinRoom
    (handleJoinRoom (handleCreateRoom ServerState.init "A" "alice" "R1").1
      "B" "R1" "bob").1
    "B" "R1" "bob").1

/-- C8 counterexample: the reachable state in which B joined room `R1`
twice has two `users` entries with connection id "B" — `join-room` never
checks whether the socket is already a member. -/
theorem c8_duplicate_user_ids_reachable :
    Reachable c8ExState ∧
    lookupAssoc c8ExState.rooms "R1" =
      some { hostId := "A", media := none, queue := [],
             currentIndex := some 0, isPlaying := false, currentTime := 0,
             users := [{ id := "A", name := "alice" },
                       { id := "B", name := "bob" },
                       { id := "B", name := "bob" }] } ∧
    ¬ ([{ id := "A", name := "alice" }, { id := "B", name := "bob" },
        { id := "B", name := "bob" }].map User.id).Nodup :=
  ⟨Reachable.join (Reachable.join (Reachable.create Reachable.init rfl)),
   by decide, by decide⟩

/-- States reachable when no connection ever joins a room whose `users`
list already contains its id (the restriction under which claim C8's
no-duplicates invariant does hold). -/
inductive ReachableNoRejoin : ServerState → Prop where
  | init : ReachableNoRejoin ServerState.init
  | create {s : ServerState} {sid userName code : String} :
      ReachableNoRejoin s → lookupAssoc s.rooms code = none →
      ReachableNoRejoin (handleCreateRoom s sid userName code).1
  | join {s : ServerState} {sid roomCode userName : String} :
      ReachableNoRejoin s →
      (∀ room, lookupAssoc s.rooms roomCode = some room →
        sid ∉ room.users.map User.id) →
      ReachableNoRejoin (handleJoinRoom s sid roomCode userName).1
  | loadMedia {s : ServerState} {sid roomCode : String} {media : Media}
      {addToQueue : Bool} :
      ReachableNoRejoin s →
      ReachableNoRejoin (handleLoadMedia s sid roomCode media addToQueue).1
  | play {s : ServerState} {sid roomCode : String} {ct : Rat} {now : Int} :
      ReachableNoRejoin s → ReachableNoRejoin (handlePlay s sid roomCode ct now).1
  | pause {s : ServerState} {sid roomCode : String} {now : Int} :
      ReachableNoRejoin s → ReachableNoRejoin (handlePause s sid roomCode now).1
  | seek {s : ServerState} {sid roomCode : String} {nt : Rat} {now : Int} :
      ReachableNoRejoin s → ReachableNoRejoin (handleSeek s sid roomCode nt now).1
  | next {s : ServerState} {sid roomCode : String} {now : Int} :
      ReachableNoRejoin s → ReachableNoRejoin (handleNextVideo s sid roomCode now).1
  | prev {s : ServerState} {sid roomCode : String} {now : Int} :
      ReachableNoRejoin s → ReachableNoRejoin (handlePrevVideo s sid roomCode now).1
  | chat {s : ServerState} {sid roomCode message : String} {now : Int} :
      ReachableNoRejoin s →
      ReachableNoRejoin (handleSendChat s sid roomCode message now).1
  | vOffer {s : ServerState} {sid roomCode targetId offer : String} :
      ReachableNoRejoin s →
      ReachableNoRejoin (handleVoiceOffer s sid roomCode targetId offer).1
  | vAnswer {s : ServerState} {sid roomCode targetId answer : String} :
      ReachableNoRejoin s →
      ReachableNoRejoin (handleVoiceAnswer s sid roomCode targetId answer).1
  | vIce {s : ServerState} {sid roomCode targetId candidate : String} :
      ReachableNoRejoin s →
      ReachableNoRejoin (handleIceCandidate s sid roomCode targetId candidate).1
  | disconnect {s : ServerState} {sid : String} :
      ReachableNoRejoin s → ReachableNoRejoin (handleDisconnect s sid).1

/-- Every room's `users` list has pairwise-distinct connection ids. -/
def UsersNodupRooms (rs : List (String × Room)) : Prop :=
  ∀ code room, lookupAssoc rs code = some room →
    (room.users.map User.id).Nodup

theorem usersNodup_update {rs : List (String × Room)}
    (h : UsersNodupRooms rs) {code : String} {room1 : Room}
    (h1 : (room1.users.map User.id).Nodup) :
    UsersNodupRooms (updateAssoc rs code room1) := by
  intro c r hl
  by_cases hc : c = code
  · subst hc
    rw [lookupAssoc_updateAssoc_self] at hl
    cases hl
    exact h1
  · rw [lookupAssoc_updateAssoc_ne _ _ hc] at hl
    exact h c r hl

theorem usersNodup_hostGuarded {s : ServerState} (h : UsersNodupRooms s.rooms)
    {sid roomCode : String} {body : Room → Room × List (Target × Event)}
    (hb : ∀ room, (body room).1.users = room.users) :
    UsersNodupRooms (hostGuarded s sid roomCode body).1.rooms := by
  cases hl : lookupAssoc s.rooms roomCode with
  | none => rw [hostGuarded_not_found hl]; exact h
  | some room =>
      by_cases hj : roomCode ∈ s.joinedOf sid
      · by_cases hh : room.hostId = sid
        · rw [hostGuarded_run hl hj hh]
          apply usersNodup_update h
          rw [hb room]
          exact h roomCode room hl
        · rw [hostGuarded_not_host hl hh]; exact h
      · rw [hostGuarded_not_joined hj]; exact h

theorem usersNodup_handleCreateRoom {s : ServerState}
    (h : UsersNodupRooms s.rooms) (sid userName code : String) :
    UsersNodupRooms (handleCreateRoom s sid userName code).1.rooms := by
  unfold handleCreateRoom
  simp only [addJoin_rooms]
  apply usersNodup_update h
  simp

theorem usersNodup_handleJoinRoom {s : ServerState}
    (h : UsersNodupRooms s.rooms) {sid roomCode userName : String}
    (hnr : ∀ room, lookupAssoc s.rooms roomCode = some room →
      sid ∉ room.users.map User.id) :
    UsersNodupRooms (handleJoinRoom s sid roomCode userName).1.rooms := by
  unfold handleJoinRoom
  cases hl : lookupAssoc s.rooms roomCode with
  | none => exact h
  | some room =>
      simp only [addJoin_rooms]
      apply usersNodup_update h
      have hs := hnr room hl
      have hn := h roomCode room hl
      simp only [List.map_append, List.map_cons, List.map_nil]
      rw [List.nodup_append]
      refine ⟨hn, List.nodup_singleton _, ?_⟩
      intro a ha hb
      rw [List.mem_singleton] at hb
      subst hb
      exact hs ha

theorem usersNodup_disconnectRoomStep {sid code : String}
    {acc : ServerState × List (Target × Event)}
    (h : UsersNodupRooms acc.1.rooms) :
    UsersNodupRooms (disconnectRoomStep sid code acc).1.rooms := by
  cases hl : lookupAssoc acc.1.rooms code with
  | none => rw [disconnectRoomStep_not_found hl]; exact h
  | some room =>
      by_cases hc : code = sid
      · subst hc
        rw [disconnectRoomStep_self hl]
        exact h
      · have hfil : ((room.users.filter
            (fun v => decide (v.id ≠ sid))).map User.id).Nodup := by
          have hsub : List.Sublist
              ((room.users.filter (fun v => decide (v.id ≠ sid))).map User.id)
              (room.users.map User.id) :=
            (List.filter_sublist _).map _
          exact (h code room hl).sublist hsub
        cases hu : room.users.filter (fun u => decide (u.id ≠ sid)) with
        | nil =>
            rw [disconnectRoomStep_empty hl hc hu]
            intro c r hlr
            by_cases hcc : c = code
            · subst hcc
              rw [lookupAssoc_eraseAssoc_self] at hlr
              cases hlr
            · rw [lookupAssoc_eraseAssoc_ne _ hcc] at hlr
              exact h c r hlr
        | cons u rest =>
            rw [hu] at hfil
            by_cases hh : room.hostId = sid
            · rw [disconnectRoomStep_promote hl hc hu hh]
              exact usersNodup_update h hfil
            · rw [disconnectRoomStep_keep hl hc hu hh]
              exact usersNodup_update h hfil

theorem usersNodup_disconnectFold (sid : String) (codes : List String) :
    ∀ acc : ServerState × List (Target × Event),
      UsersNodupRooms acc.1.rooms →
      UsersNodupRooms
        ((codes.foldl (fun a c => disconnectRoomStep sid c a) acc).1).rooms := by
  induction codes with
  | nil => intro acc h; exact h
  | cons c cs ih =>
      intro acc h
      exact ih _ (usersNodup_disconnectRoomStep h)

theorem usersNodup_handleDisconnect {s : ServerState}
    (h : UsersNodupRooms s.rooms) (sid : String) :
    UsersNodupRooms (handleDisconnect s sid).1.rooms := by
  unfold handleDisconnect
  exact usersNodup_disconnectFold sid (s.joinedOf sid) (s, []) h

theorem reachableNoRejoin_usersNodup {s : ServerState}
    (h : ReachableNoRejoin s) : UsersNodupRooms s.rooms := by
  induction h with
  | init => intro c r hl; simp [ServerState.init, lookupAssoc] at hl
  | create _ _ ih => exact usersNodup_handleCreateRoom ih _ _ _
  | join _ hnr ih => exact usersNodup_handleJoinRoom ih hnr
  | loadMedia _ ih =>
      apply usersNodup_hostGuarded ih
      intro room
      dsimp only
      split <;> rfl
  | play _ ih => exact usersNodup_hostGuarded ih fun room => rfl
  | pause _ ih => exact usersNodup_hostGuarded ih fun room => rfl
  | seek _ ih => exact usersNodup_hostGuarded ih fun room => rfl
  | next _ ih => exact usersNodup_hostGuarded ih fun room => rfl
  | prev _ ih => exact usersNodup_hostGuarded ih fun room => rfl
  | chat _ ih => rw [state_handleSendChat]; exact ih
  | vOffer _ ih => exact ih
  | vAnswer _ ih => exact ih
  | vIce _ ih => exact ih
  | disconnect _ ih => exact usersNodup_handleDisconnect ih _

/-- C8 amended: in every state reachable without any connection joining a
room whose `users` list already contains its id, every room's `users`
list contains no two entries with the same connection id.  (The original
claim is false: a repeated `join-room` duplicates the entry.) -/
theorem c8_users_nodup_without_rejoin (s : ServerState) (code : String)
    (room : Room) (hs : ReachableNoRejoin s)
    (hl : lookupAssoc s.rooms code = some room) :
    (room.users.map User.id).Nodup :=
  reachableNoRejoin_usersNodup hs code room hl

def c8ExStateOk : ServerState :=
  (handleJoinRoom (handleCreateRoom ServerState.init "A" "alice" "R1").1
    "B" "R1" "bob").1

/-- Witness for the amended C8 on a concrete rejoin-free state. -/
theorem c8_users_nodup_without_rejoin_w :
    ([{ id := "A", name := "alice" },
      { id := "B", name := "bob" }].map User.id).Nodup := by
  have hs : ReachableNoRejoin c8ExStateOk := by
    apply ReachableNoRejoin.join
      (ReachableNoRejoin.create ReachableNoRejoin.init rfl)
    intro room hr
    rw [show lookupAssoc
          (handleCreateRoom ServerState.init "A" "alice" "R1").1.rooms "R1" =
        some { hostId := "A", media := none, queue := [],
               currentIndex := some 0, isPlaying := false, currentTime := 0,
               users := [{ id := "A", name := "alice" }] } from rfl] at hr
    cases hr
    decide
  exact c8_users_nodup_without_rejoin c8ExStateOk "R1"
    { hostId := "A", media := none, queue := [], currentIndex := some 0,
      isPlaying := false, currentTime := 0,
      users := [{ id := "A", name := "alice" },
                { id := "B", name := "bob" }] }
    hs (by decide)

/-! ### Claim C2: modular queue navigation -/

/-- A host navigation request kind: `next-video` or `prev-video`. -/
inductive NavOp where
  | next
  | prev
deriving DecidableEq

/-- Run one navigation request through its handler, keeping the state. -/
def applyNav (sid roomCode : String) (now : Int) (s : ServerState)
    (op : NavOp) : ServerState :=
  match op with
  | NavOp.next => (handleNextVideo s sid roomCode now).1
  | NavOp.prev => (handlePrevVideo s sid roomCode now).1

/-- Number of `next-video` requests in a sequence. -/
def countNext : List NavOp → Nat
  | [] => 0
  | NavOp.next :: rest => countNext rest + 1
  | NavOp.prev :: rest => countNext rest

/-- Number of `prev-video` requests in a sequence. -/
def countPrev : List NavOp → Nat
  | [] => 0
  | NavOp.next :: rest => countPrev rest
  | NavOp.prev :: rest => countPrev rest + 1

theorem hostGuarded_joined (s : ServerState) (sid roomCode : String)
    (body : Room → Room × List (Target × Event)) :
    (hostGuarded s sid roomCode body).1.joined = s.joined := by
  unfold hostGuarded
  cases lookupAssoc s.rooms roomCode with
  | none => rfl
  | some room =>
      dsimp only
      split
      · split <;> rfl
      · rfl

theorem joinedOf_eq_of_joined_eq {s1 s2 : ServerState}
    (h : s1.joined = s2.joined) (sid : String) :
    s1.joinedOf sid = s2.joinedOf sid := by
  unfold ServerState.joinedOf
  rw [h]

theorem navNext_currentIndex {room : Room} {i : Int}
    (hi : room.currentIndex = some i) (h0 : 0 ≤ i)
    (hN : 0 < room.queue.length) :
    (navNext room).currentIndex =
      some ((i + 1) % (room.queue.length : Int)) := by
  have hne : ((room.queue.length : Int)) ≠ 0 := by omega
  unfold navNext
  dsimp only
  rw [hi]
  simp only [jsAdd, jsMod]
  rw [if_neg hne, Int.tmod_eq_emod (by omega) (by omega)]

theorem navPrev_currentIndex {room : Room} {i : Int}
    (hi : room.currentIndex = some i) (h0 : 0 ≤ i)
    (hN : 0 < room.queue.length) :
    (navPrev room).currentIndex =
      some ((i + -1 + (room.queue.length : Int)) %
        (room.queue.length : Int)) := by
  have hne : ((room.queue.length : Int)) ≠ 0 := by omega
  unfold navPrev
  dsimp only
  rw [hi]
  simp only [jsAdd, jsMod]
  rw [if_neg hne, Int.tmod_eq_emod (by omega) (by omega)]

theorem handleNextVideo_state {s : ServerState} {sid roomCode : String}
    {room : Room} {now : Int}
    (hl : lookupAssoc s.rooms roomCode = some room)
    (hj : roomCode ∈ s.joinedOf sid) (hh : room.hostId = sid) :
    (handleNextVideo s sid roomCode now).1 =
      { s with rooms := updateAssoc s.rooms roomCode (navNext room) } := by
  unfold handleNextVideo
  rw [hostGuarded_run hl hj hh]

theorem handlePrevVideo_state {s : ServerState} {sid roomCode : String}
    {room : Room} {now : Int}
    (hl : lookupAssoc s.rooms roomCode = some room)
    (hj : roomCode ∈ s.joinedOf sid) (hh : room.hostId = sid) :
    (handlePrevVideo s sid roomCode now).1 =
      { s with rooms := updateAssoc s.rooms roomCode (navPrev room) } := by
  unfold handlePrevVideo
  rw [hostGuarded_run hl hj hh]

theorem c2_navFold (sid roomCode : String) (now : Int) :
    ∀ (ops : List NavOp) (s : ServerState) (room : Room) (i : Int),
      lookupAssoc s.rooms roomCode = some room →
      room.hostId = sid →
      roomCode ∈ s.joinedOf sid →
      room.currentIndex = some i →
      0 ≤ i → i < (room.queue.length : Int) →
      ∃ room2,
        lookupAssoc ((ops.foldl (applyNav sid roomCode now) s).rooms) roomCode
          = some room2 ∧
        room2.queue = room.queue ∧
        room2.currentIndex =
          some ((i + (countNext ops : Int) - (countPrev ops : Int)) %
            (room.queue.length : Int)) := by
  intro ops
  induction ops with
  | nil =>
      intro s room i hl hh hj hi h0 hlt
      refine ⟨room, hl, rfl, ?_⟩
      rw [hi]
      simp only [countNext, countPrev, Nat.cast_zero]
      rw [show i + 0 - 0 = i by ring, Int.emod_eq_of_lt h0 hlt]
  | cons op rest ih =>
      intro s room i hl hh hj hi h0 hlt
      have hN : 0 < room.queue.length := by omega
      have hne : ((room.queue.length : Int)) ≠ 0 := by omega
      have hpos : (0 : Int) < (room.queue.length : Int) := by omega
      cases op with
      | next =>
          simp only [List.foldl_cons]
          have happ : applyNav sid roomCode now s NavOp.next =
              { s with rooms := updateAssoc s.rooms roomCode (navNext room) } := by
            unfold applyNav
            exact handleNextVideo_state hl hj hh
          rw [happ]
          have hl1 : lookupAssoc
              ({ s with rooms := updateAssoc s.rooms roomCode (navNext room) }).rooms
              roomCode = some (navNext room) :=
            lookupAssoc_updateAssoc_self _ _ _
          have hi1 := navNext_currentIndex hi h0 hN
          have hh1 : (navNext room).hostId = sid := hh
          have hj1 : roomCode ∈
              ({ s with rooms := updateAssoc s.rooms roomCode (navNext room) }).joinedOf sid := by
            rw [joinedOf_eq_of_joined_eq rfl sid]
            exact hj
          have h01 : 0 ≤ (i + 1) % ((room.queue.length : Int)) :=
            Int.emod_nonneg _ hne
          have hlt1 : (i + 1) % ((room.queue.length : Int)) <
              ((navNext room).queue.length : Int) := by
            show _ < ((room.queue.length : Int))
            exact Int.emod_lt_of_pos _ hpos
          obtain ⟨room2, hr2, hq2, hc2⟩ :=
            ih _ (navNext room) ((i + 1) % (room.queue.length : Int))
              hl1 hh1 hj1 hi1 h01 hlt1
          refine ⟨room2, hr2, hq2, ?_⟩
          rw [hc2]
          congr 1
          show ((i + 1) % (room.queue.length : Int) +
              (countNext rest : Int) - (countPrev rest : Int)) %
              ((room.queue.length : Int)) = _
          rw [show (i + 1) % ((room.queue.length : Int)) +
                (countNext rest : Int) - (countPrev rest : Int) =
              (i + 1) % ((room.queue.length : Int)) +
                ((countNext rest : Int) - (countPrev rest : Int)) by ring,
            Int.emod_add_emod]
          simp only [countNext, countPrev]
          congr 1
          push_cast
          ring
      | prev =>
          simp only [List.foldl_cons]
          have happ : applyNav sid roomCode now s NavOp.prev =
              { s with rooms := updateAssoc s.rooms roomCode (navPrev room) } := by
            unfold applyNav
            exact handlePrevVideo_state hl hj hh
          rw [happ]
          have hl1 : lookupAssoc
              ({ s with rooms := updateAssoc s.rooms roomCode (navPrev room) }).rooms
              roomCode = some (navPrev room) :=
            lookupAssoc_updateAssoc_self _ _ _
          have hi1 := navPrev_currentIndex hi h0 hN
          have hh1 : (navPrev room).hostId = sid := hh
          have hj1 : roomCode ∈
              ({ s with rooms := updateAssoc s.rooms roomCode (navPrev room) }).joinedOf sid := by
            rw [joinedOf_eq_of_joined_eq rfl sid]
            exact hj
          have h01 : 0 ≤ (i + -1 + (room.queue.length : Int)) %
              ((room.queue.length : Int)) :=
            Int.emod_nonneg _ hne
          have hlt1 : (i + -1 + (room.queue.length : Int)) %
              ((room.queue.length : Int)) < ((navPrev room).queue.length : Int) := by
            show _ < ((room.queue.length : Int))
            exact Int.emod_lt_of_pos _ hpos
          obtain ⟨room2, hr2, hq2, hc2⟩ :=
            ih _ (navPrev room)
              ((i + -1 + (room.queue.length : Int)) % (room.queue.length : Int))
              hl1 hh1 hj1 hi1 h01 hlt1
          refine ⟨room2, hr2, hq2, ?_⟩
          rw [hc2]
          congr 1
          show ((i + -1 + (room.queue.length : Int)) % (room.queue.length : Int) +
              (countNext rest : Int) - (countPrev rest : Int)) %
              ((room.queue.length : Int)) = _
          rw [show (i + -1 + (room.queue.length : Int)) % ((room.queue.length : Int)) +
                (countNext rest : Int) - (countPrev rest : Int) =
              (i + -1 + (room.queue.length : Int)) % ((room.queue.length : Int)) +
                ((countNext rest : Int) - (countPrev rest : Int)) by ring,
            Int.emod_add_emod]
          rw [show i + -1 + ((room.queue.length : Int)) +
                ((countNext rest : Int) - (countPrev rest : Int)) =
              (i + (countNext rest : Int) - ((countPrev rest : Int) + 1)) +
                ((room.queue.length : Int)) * 1 by ring,
            Int.add_mul_emod_self_left]
          simp only [countNext, countPrev]
          congr 1

/-- C2: for every sequence of `next-video`/`prev-video` requests issued by
the host on a room whose queue has length N > 0, starting from a valid
index, the resulting `currentIndex` equals
`(initialIndex + #next - #prev) mod N` and lies in `[0, N)`; because the
sequence is universally quantified, every prefix — i.e. the state after
each call — satisfies the same bounds. -/
theorem c2_navigation_modular_index (s : ServerState) (sid roomCode : String)
    (now : Int) (room : Room) (i : Int) (N : Nat) (ops : List NavOp)
    (hl : lookupAssoc s.rooms roomCode = some room)
    (hh : room.hostId = sid)
    (hj : roomCode ∈ s.joinedOf sid)
    (hN : room.queue.length = N)
    (hi : room.currentIndex = some i)
    (h0 : 0 ≤ i) (hlt : i < (N : Int)) :
    ∃ room2,
      lookupAssoc ((ops.foldl (applyNav sid roomCode now) s).rooms) roomCode
        = some room2 ∧
      room2.queue.length = N ∧
      room2.currentIndex =
        some ((i + (countNext ops : Int) - (countPrev ops : Int)) % (N : Int)) ∧
      0 ≤ (i + (countNext ops : Int) - (countPrev ops : Int)) % (N : Int) ∧
      (i + (countNext ops : Int) - (countPrev ops : Int)) % (N : Int)
        < (N : Int) := by
  subst hN
  have hne : ((room.queue.length : Int)) ≠ 0 := by omega
  have hpos : (0 : Int) < (room.queue.length : Int) := by omega
  obtain ⟨room2, h1, h2, h3⟩ :=
    c2_navFold sid roomCode now ops s room i hl hh hj hi h0 hlt
  exact ⟨room2, h1, by rw [h2], h3,
    Int.emod_nonneg _ hne, Int.emod_lt_of_pos _ hpos⟩

def c2ExState : ServerState :=
  (handleLoadMedia
    (handleLoadMedia
      (handleLoadMedia (handleCreateRoom ServerState.init "A" "alice" "R1").1
        "A" "R1" { type := "youtube", id := "m0" } false).1
      "A" "R1" { type := "youtube", id := "m1" } true).1
    "A" "R1" { type := "youtube", id := "m2" } true).1

/-- Witness for C2: queue of length 3 at index 0; next, prev, prev lands
on (0 + 1 - 2) mod 3 = 2. -/
theorem c2_navigation_modular_index_w :
    ∃ room2,
      lookupAssoc
        (([NavOp.next, NavOp.prev, NavOp.prev].foldl
            (applyNav "A" "R1" 99) c2ExState).rooms) "R1" = some room2 ∧
      room2.queue.length = 3 ∧
      room2.currentIndex =
        some ((0 + (countNext [NavOp.next, NavOp.prev, NavOp.prev] : Int) -
          (countPrev [NavOp.next, NavOp.prev, NavOp.prev] : Int)) % (3 : Int)) ∧
      0 ≤ (0 + (countNext [NavOp.next, NavOp.prev, NavOp.prev] : Int) -
          (countPrev [NavOp.next, NavOp.prev, NavOp.prev] : Int)) % (3 : Int) ∧
      (0 + (countNext [NavOp.next, NavOp.prev, NavOp.prev] : Int) -
          (countPrev [NavOp.next, NavOp.prev, NavOp.prev] : Int)) % (3 : Int)
        < (3 : Int) :=
  c2_navigation_modular_index c2ExState "A" "R1" 99
    { hostId := "A", media := some { type := "youtube", id := "m0" },
      queue := [{ type := "youtube", id := "m0" },
                { type := "youtube", id := "m1" },
                { type := "youtube", id := "m2" }],
      currentIndex := some 0, isPlaying := false, currentTime := 0,
      users := [{ id := "A", name := "alice" }] }
    0 3 [NavOp.next, NavOp.prev, NavOp.prev]
    (by decide) (by decide) (by decide) (by decide) (by decide) (by decide)
    (by decide)
